import Mathlib

/-!
Verification of the request-handling core (a koa-style HTTP framework):
shallow embedding of `lib/application.js` (`handleRequest`, `respond`),
the context prototype's `onerror`, and the request facade getters
(`ips`, `ip`, `fresh`, `stale`, `subdomains`, `query`/`querystring`, `URL`).

Modelling conventions:
- JS strings are modelled as Lean `String` (lists of unicode scalars); where
  the code is byte-oriented (query-string percent-coding) strings are modelled
  as UTF-8 byte lists (`BStr`).
- Header maps are association lists with lowercase names (node lowercases
  incoming header names, and the response header API is case-insensitive).
- JS truthiness on strings is: a string is falsy iff it is empty; on numbers:
  falsy iff 0; `a || b` is modelled by explicit falsiness tests.
- The external `statuses` table and `statuses.empty` set are embedded verbatim.
-/

/-! ## Generic string and byte helpers -/

/-- JS `a || b` on strings: `a` unless `a` is falsy (empty). -/
def jsOrS (a b : String) : String := if a = "" then b else a

/-- JS `a || b` where `a : Option Nat` (absent or a number); `0` is falsy. -/
def jsOrON (a b : Option Nat) : Option Nat :=
  match a with
  | some n => if n = 0 then b else some n
  | none => b

/-- UTF-8 encoding of one unicode scalar, as `Buffer.byteLength` sees it. -/
def utf8Bytes (c : Char) : List Nat :=
  let n := c.toNat
  if n < 128 then [n]
  else if n < 2048 then [192 + n / 64, 128 + n % 64]
  else if n < 65536 then [224 + n / 4096, 128 + (n / 64) % 64, 128 + n % 64]
  else [240 + n / 262144, 128 + (n / 4096) % 64, 128 + (n / 64) % 64, 128 + n % 64]

/-- UTF-8 bytes of a string. -/
def strBytes (s : String) : List Nat := (s.toList.map utf8Bytes).flatten

/-- Model of node `Buffer.byteLength` (UTF-8 byte count). -/
def byteLen (s : String) : Nat := (strBytes s).length

/-- ASCII lower-casing of a character (header names are ASCII). -/
def lowerChar (c : Char) : Char :=
  if 65 ≤ c.toNat ∧ c.toNat ≤ 90 then Char.ofNat (c.toNat + 32) else c

/-- ASCII lower-casing of a string; models JS `toLowerCase` on header names. -/
def asciiLower (s : String) : String := String.mk (s.toList.map lowerChar)

/-- Split a list on every occurrence of `sep` (JS `String.prototype.split` with a
single-character separator); auxiliary accumulator form. -/
def splitSepAux {α : Type} [DecidableEq α] (sep : α) : List α → List α → List (List α)
  | [], acc => [acc.reverse]
  | b :: rest, acc =>
    if b = sep then acc.reverse :: splitSepAux sep rest []
    else splitSepAux sep rest (b :: acc)

/-- Split a list on every occurrence of `sep`. `[] ↦ [[]]`, like JS split. -/
def splitSep {α : Type} [DecidableEq α] (sep : α) (l : List α) : List (List α) :=
  splitSepAux sep l []

/-- JS `\s` on the ASCII range (space, tab, newline, carriage return,
vertical tab, form feed); sufficient for header values. -/
def jsWs (c : Char) : Bool :=
  c = ' ' || c = '\t' || c = '\n' || c = '\r' || c = '\x0b' || c = '\x0c'

/-- Drop leading JS whitespace. -/
def trimWsL (s : String) : String := String.mk (s.toList.dropWhile jsWs)

/-- Drop trailing JS whitespace. -/
def trimWsR (s : String) : String := String.mk ((s.toList.reverse.dropWhile jsWs).reverse)

/-- Interior and final parts of a comma split: each loses the whitespace the
regex consumed on its side of a comma. -/
def splitCommaMid : List String → List String
  | [] => []
  | [p] => [trimWsL p]
  | p :: rest => trimWsL (trimWsR p) :: splitCommaMid rest

/-- Model of JS `str.split(/\s*,\s*/)`: split on commas, with the whitespace
adjacent to each comma consumed by the match. Leading whitespace of the whole
string and trailing whitespace of the whole string are preserved. -/
def splitCommaWS (s : String) : List String :=
  match (splitSep ',' s.toList).map String.mk with
  | [] => []
  | [p] => [p]
  | p :: rest => trimWsR p :: splitCommaMid rest

/-- Association-list lookup for a header name. -/
def lookupHeader (hs : List (String × String)) (f : String) : Option String :=
  (hs.find? (fun kv => kv.1 == f)).map (fun kv => kv.2)

/-- Set a header, replacing an existing entry of the same name. -/
def setHeader (hs : List (String × String)) (f v : String) : List (String × String) :=
  if (hs.find? (fun kv => kv.1 == f)).isSome then
    hs.map (fun kv => if kv.1 == f then (kv.1, v) else kv)
  else hs ++ [(f, v)]

/-- Remove a header by name. -/
def removeHeader (hs : List (String × String)) (f : String) : List (String × String) :=
  hs.filter (fun kv => !(kv.1 == f))

/-- Header-presence test. -/
def hasHeader (hs : List (String × String)) (f : String) : Bool :=
  (hs.find? (fun kv => kv.1 == f)).isSome

/-- Embedding of `request.get(field)` from `lib/request.js`: lowercase the
field name; `referer`/`referrer` are interchangeable; a missing header
yields the empty string. -/
def reqHeaderGet (hs : List (String × String)) (field : String) : String :=
  let f := asciiLower field
  if f = "referer" ∨ f = "referrer" then
    jsOrS ((lookupHeader hs "referrer").getD "") ((lookupHeader hs "referer").getD "")
  else (lookupHeader hs f).getD ""

/-! ## The `statuses` table (external collaborator, embedded verbatim) -/

/-- Reason phrase table of the `statuses` package: `statuses[code]`. -/
def statusesMsg : Nat → Option String
  | 100 => some "Continue"
  | 101 => some "Switching Protocols"
  | 102 => some "Processing"
  | 103 => some "Early Hints"
  | 200 => some "OK"
  | 201 => some "Created"
  | 202 => some "Accepted"
  | 203 => some "Non-Authoritative Information"
  | 204 => some "No Content"
  | 205 => some "Reset Content"
  | 206 => some "Partial Content"
  | 207 => some "Multi-Status"
  | 208 => some "Already Reported"
  | 226 => some "IM Used"
  | 300 => some "Multiple Choices"
  | 301 => some "Moved Permanently"
  | 302 => some "Found"
  | 303 => some "See Other"
  | 304 => some "Not Modified"
  | 305 => some "Use Proxy"
  | 306 => some "(Unused)"
  | 307 => some "Temporary Redirect"
  | 308 => some "Permanent Redirect"
  | 400 => some "Bad Request"
  | 401 => some "Unauthorized"
  | 402 => some "Payment Required"
  | 403 => some "Forbidden"
  | 404 => some "Not Found"
  | 405 => some "Method Not Allowed"
  | 406 => some "Not Acceptable"
  | 407 => some "Proxy Authentication Required"
  | 408 => some "Request Timeout"
  | 409 => some "Conflict"
  | 410 => some "Gone"
  | 411 => some "Length Required"
  | 412 => some "Precondition Failed"
  | 413 => some "Payload Too Large"
  | 414 => some "URI Too Long"
  | 415 => some "Unsupported Media Type"
  | 416 => some "Range Not Satisfiable"
  | 417 => some "Expectation Failed"
  | 418 => some "I\x27m a Teapot"
  | 421 => some "Misdirected Request"
  | 422 => some "Unprocessable Entity"
  | 423 => some "Locked"
  | 424 => some "Failed Dependency"
  | 425 => some "Too Early"
  | 426 => some "Upgrade Required"
  | 428 => some "Precondition Required"
  | 429 => some "Too Many Requests"
  | 431 => some "Request Header Fields Too Large"
  | 451 => some "Unavailable For Legal Reasons"
  | 500 => some "Internal Server Error"
  | 501 => some "Not Implemented"
  | 502 => some "Bad Gateway"
  | 503 => some "Service Unavailable"
  | 504 => some "Gateway Timeout"
  | 505 => some "HTTP Version Not Supported"
  | 506 => some "Variant Also Negotiates"
  | 507 => some "Insufficient Storage"
  | 508 => some "Loop Detected"
  | 509 => some "Bandwidth Limit Exceeded"
  | 510 => some "Not Extended"
  | 511 => some "Network Authentication Required"
  | _ => none

/-- The `statuses.empty` set: statuses that forbid a response body. -/
def statusEmpty (n : Nat) : Bool := n = 204 || n = 205 || n = 304

/-! ## Error recovery: `onerror` from the context prototype -/

/-- A JS error object as `onerror` reads it: optional `status`/`statusCode`
numbers, an optional transport `code` string, the `expose` flag, the message,
optional headers to reapply, and the `headerSent` marker set by recovery. -/
structure Err where
  status : Option Nat
  statusCode : Option Nat
  code : Option String
  expose : Bool
  message : String
  headers : List (String × String)
  headerSent : Bool
deriving DecidableEq, Repr

/-- The context/response state that `onerror` reads and writes: whether
headers are committed (`headerSent`), whether the raw response is still
writable, the staged response headers, the response status, the body the
response was ended with (if ended), and the application error channel
(`app.emit('error', ...)`) as a list of emitted errors. -/
structure EState where
  headerSent : Bool
  writable : Bool
  headers : List (String × String)
  status : Nat
  endedWith : Option String
  emitted : List Err
deriving DecidableEq, Repr

/-- Apply `this.set(err.headers)`: set each carried header in order. -/
def setHeaders (hs : List (String × String)) : List (String × String) → List (String × String)
  | [] => hs
  | (f, v) :: rest => setHeaders (setHeader hs f v) rest

/-- Embedding of the context prototype's `onerror(err)` (error recovery),
for a genuine error value (the `err == null` guard and the non-error
wrapping of the source are outside the claims' domain, which quantifies
over error objects). `this.type = 'text'` is the response type setter
(absent `lib/response.js`), modelled per the spec's "force content type to
plain text" as setting `content-type` to `text/plain; charset=utf-8`;
`this.length = n` sets the `content-length` header. Returns the updated
context state and the updated error object. -/
def onerror (st : EState) (err : Err) : EState × Err :=
  let hs := st.headerSent || !st.writable
  let err1 := if hs then { err with headerSent := true } else err
  let st1 := { st with emitted := st.emitted ++ [err1] }
  if hs then (st1, err1)
  else
    let st2 := { st1 with headers := ([] : List (String × String)) }
    let st3 := { st2 with headers := setHeaders st2.headers err1.headers }
    let st4 := { st3 with headers := setHeader st3.headers "content-type" "text/plain; charset=utf-8" }
    let sc0 := jsOrON err1.status err1.statusCode
    let sc1 := if err1.code = some "ENOENT" then some 404 else sc0
    let statusCode :=
      match sc1 with
      | some n => if (statusesMsg n).isSome then n else 500
      | none => 500
    let codeMsg := (statusesMsg statusCode).getD ""
    let msg := if err1.expose then err1.message else codeMsg
    let err2 := { err1 with status := some statusCode }
    let st5 := { st4 with
                 status := statusCode,
                 headers := setHeader st4.headers "content-length" (toString (byteLen msg)),
                 endedWith := some msg }
    (st5, err2)

/-- Status resolution of error recovery, spelled as the (amended) claim
describes it: the ENOENT transport code forces 404, taking precedence over
an explicit status; otherwise the explicit status (`err.status`, else
`err.statusCode`) when present; otherwise 500; and a status absent from the
known status table is forced to 500. -/
def errResolvedStatus (err : Err) : Nat :=
  let base := if err.code = some "ENOENT" then some 404 else jsOrON err.status err.statusCode
  match base with
  | some n => if (statusesMsg n).isSome then n else 500
  | none => 500

/-! ## Response finalization: `respond` and `handleRequest` from `lib/application.js` -/

mutual

/-- A JSON-serializable structured body value. -/
inductive Jv where
  | jnull : Jv
  | jb : Bool → Jv
  | jn : Int → Jv
  | js : String → Jv
  | ja : JvList → Jv
  | jo : JvFields → Jv

/-- A list of JSON values. -/
inductive JvList where
  | nil : JvList
  | cons : Jv → JvList → JvList

/-- The fields of a JSON object. -/
inductive JvFields where
  | nil : JvFields
  | cons : String → Jv → JvFields → JvFields

end

/-- JSON string escaping for `JSON.stringify` (quotes, backslash, common
control characters). -/
def jsonEscape (s : String) : String :=
  String.mk ((s.toList.map (fun c =>
    if c = '"' then ['\\', '"']
    else if c = '\\' then ['\\', '\\']
    else if c = '\n' then ['\\', 'n']
    else if c = '\r' then ['\\', 'r']
    else if c = '\t' then ['\\', 't']
    else [c])).flatten)

mutual

/-- Model of `JSON.stringify` on structured bodies. -/
def jsonStringify : Jv → String
  | .jnull => "null"
  | .jb true => "true"
  | .jb false => "false"
  | .jn n => toString n
  | .js s => "\"" ++ jsonEscape s ++ "\""
  | .ja xs => "[" ++ jsonArr xs ++ "]"
  | .jo fs => "\x7b" ++ jsonObj fs ++ "\x7d"

/-- Comma-joined serialization of a JSON array's elements. -/
def jsonArr : JvList → String
  | .nil => ""
  | .cons x .nil => jsonStringify x
  | .cons x rest => jsonStringify x ++ "," ++ jsonArr rest

/-- Comma-joined serialization of a JSON object's fields. -/
def jsonObj : JvFields → String
  | .nil => ""
  | .cons k v .nil => "\"" ++ jsonEscape k ++ "\":" ++ jsonStringify v
  | .cons k v rest => "\"" ++ jsonEscape k ++ "\":" ++ jsonStringify v ++ "," ++ jsonObj rest

end

/-- The declared body value a middleware chain can stage: text, a binary
buffer, a stream-like source (covering `Stream`, `Blob`, `ReadableStream`
and `Response` bodies, which `respond` pipes), or a structured
JSON-serializable value. -/
inductive BodyVal where
  | text : String → BodyVal
  | bin : List Nat → BodyVal
  | stream : BodyVal
  | jsonv : Jv → BodyVal

/-- The context/response state `respond` operates on: the bypass flag
(`ctx.respond === false`), transport writability, whether headers were
committed, the declared status, request method and HTTP major version, the
staged headers (lowercase names), the staged body, the explicit-null-body
marker, the raw `statusMessage` (empty when unset), the body bytes written
to the transport, and whether the response was ended or piped. -/
structure RState where
  respondFlag : Bool
  writable : Bool
  headersSent : Bool
  status : Nat
  method : String
  httpVersionMajor : Nat
  headers : List (String × String)
  body : Option BodyVal
  explicitNullBody : Bool
  statusMessage : String
  writtenBytes : List Nat
  ended : Bool
  piped : Bool

/-- Modelled from the spec: header mutation on a response whose headers are
already committed must be a no-op (the response facade of `lib/response.js`
is not under `src/`; its `set` rejects mutation after headers are sent). -/
def resSetHeader (st : RState) (f v : String) : RState :=
  if st.headersSent then st else { st with headers := setHeader st.headers f v }

/-- Modelled from the spec: header removal after headers are committed is a
no-op (the response facade's `remove` is not under `src/`). -/
def resRemoveHeader (st : RState) (f : String) : RState :=
  if st.headersSent then st else { st with headers := removeHeader st.headers f }

/-- Modelled from the spec: the response facade's `length` setter
(`ctx.length = n`) sets the `content-length` header. -/
def resSetLength (st : RState) (n : Nat) : RState :=
  resSetHeader st "content-length" (toString n)

/-- Modelled from the spec: the response facade's `type` setter with
`'text'` forces the content type to plain text. -/
def resSetTypeText (st : RState) : RState :=
  resSetHeader st "content-type" "text/plain; charset=utf-8"

/-- Leading-decimal-digit parse with default 0, as `parseInt(x, 10) || 0`
behaves on header values. -/
def parseIntD (s : String) : Nat :=
  let ds := s.toList.takeWhile Char.isDigit
  ds.foldl (fun a c => a * 10 + (c.toNat - 48)) 0

/-- Modelled from the spec: the response facade's `length` getter — the
`content-length` header when present, otherwise the declared body's length
(UTF-8 bytes for text, buffer length for binary, the serialized JSON byte
length for structured values, undefined for streams or no body). -/
def responseLength (st : RState) : Option Nat :=
  if hasHeader st.headers "content-length" then
    some (parseIntD ((lookupHeader st.headers "content-length").getD ""))
  else
    match st.body with
    | none => none
    | some (.text s) => some (byteLen s)
    | some (.bin bs) => some bs.length
    | some .stream => none
    | some (.jsonv j) => some (byteLen (jsonStringify j))

/-- Modelled from the spec: setting the context body to null strips the
staged body and entity headers (content type, content length,
transfer encoding) and records the explicit-null-body marker. -/
def setBodyNull (st : RState) : RState :=
  let st1 := { st with body := none, explicitNullBody := true }
  resRemoveHeader (resRemoveHeader (resRemoveHeader st1 "content-type") "content-length") "transfer-encoding"

/-- Model of `res.end(data)`: marks the response ended, commits headers, and
appends the given body bytes to the transport. -/
def resEnd (st : RState) (data : List Nat) : RState :=
  { st with ended := true, headersSent := true, writtenBytes := st.writtenBytes ++ data }

/-- Modelled from the spec: the response facade's `message` getter — the raw
status message when set, else the reason phrase of the current status. -/
def respMessage (st : RState) : String :=
  jsOrS st.statusMessage ((statusesMsg st.status).getD "")

/-- Embedding of `respond(ctx)` from `lib/application.js`: the response
finalizer run after the middleware chain completes without failure. -/
def respond (ctx : RState) : RState :=
  if ctx.respondFlag = false then ctx
  else if ctx.writable = false then ctx
  else
    let code := ctx.status
    if statusEmpty code then
      resEnd (setBodyNull ctx) []
    else if ctx.method = "HEAD" then
      let ctx1 :=
        if ¬ctx.headersSent ∧ ¬(hasHeader ctx.headers "content-length") then
          match responseLength ctx with
          | some n => resSetLength ctx n
          | none => ctx
        else ctx
      resEnd ctx1 []
    else
      match ctx.body with
      | none =>
        if ctx.explicitNullBody then
          let c1 := resRemoveHeader (resRemoveHeader ctx "content-type") "transfer-encoding"
          let c2 := resSetLength c1 0
          resEnd c2 []
        else
          let bodyStr :=
            if ctx.httpVersionMajor ≥ 2 then toString code
            else jsOrS (respMessage ctx) (toString code)
          let c1 := if ¬ctx.headersSent then resSetLength (resSetTypeText ctx) (byteLen bodyStr) else ctx
          resEnd c1 (strBytes bodyStr)
      | some (.bin bs) => resEnd ctx bs
      | some (.text s) => resEnd ctx (strBytes s)
      | some .stream => { ctx with piped := true }
      | some (.jsonv j) =>
        let s := jsonStringify j
        let c1 := if ¬ctx.headersSent then resSetLength ctx (byteLen s) else ctx
        resEnd c1 (strBytes s)

/-- Embedding of `Application.handleRequest` (success path): set the raw
response status code to 404, run the composed middleware chain, then
finalize with `respond`. The failure path (`.catch(onerror)`) and the
on-finished observer are modelled by `onerror` separately. -/
def handleRequest (mw : RState → RState) (st : RState) : RState :=
  respond (mw { st with status := 404 })

/-! ## Client IP resolution: `ips` and `ip` from `lib/request.js` -/

/-- The request state the `ips`/`ip` getters read: the request headers
(lowercase names), the application configuration (`proxy`,
`proxyIpHeader`, `maxIpsCount`), the raw socket remote address (empty when
absent), and the `[IP]` cache slot. -/
structure IpState where
  headers : List (String × String)
  proxy : Bool
  proxyIpHeader : String
  maxIpsCount : Nat
  remoteAddress : String
  ipCache : Option String
deriving DecidableEq, Repr

/-- Embedding of the `ips` getter: when proxy trust is enabled and the
configured forwarded-for header is present, split it on commas
(whitespace-tolerant); then, when `maxIpsCount` is positive, keep only the
last `maxIpsCount` entries (`Array.prototype.slice(-n)`). -/
def get_ips (st : IpState) : List String :=
  let val := reqHeaderGet st.headers st.proxyIpHeader
  let ips := if st.proxy ∧ val ≠ "" then splitCommaWS val else []
  if st.maxIpsCount > 0 then ips.drop (ips.length - st.maxIpsCount) else ips

/-- Embedding of the `ip` getter: return the cached value if it is truthy;
otherwise compute `ips[0] || socket.remoteAddress || ''`, store it in the
cache slot, and return it. -/
def get_ip (st : IpState) : String × IpState :=
  if (st.ipCache.getD "") ≠ "" then (st.ipCache.getD "", st)
  else
    let v := jsOrS (jsOrS ((get_ips st).headD "") st.remoteAddress) ""
    (v, { st with ipCache := some v })

/-! ## Freshness: `fresh` and `stale` from `lib/request.js` -/

/-- Embedding of the `fresh` getter. The conditional-header comparison of
the external `fresh` package is an opaque collaborator, passed in as
`freshFn` and applied to the request and response header maps. -/
def get_fresh (freshFn : List (String × String) → List (String × String) → Bool)
    (method : String) (status : Nat)
    (reqHeaders resHeaders : List (String × String)) : Bool :=
  if method ≠ "GET" ∧ method ≠ "HEAD" then false
  else if (200 ≤ status ∧ status < 300) ∨ status = 304 then freshFn reqHeaders resHeaders
  else false

/-- Embedding of the `stale` getter: the negation of `fresh`. -/
def get_stale (freshFn : List (String × String) → List (String × String) → Bool)
    (method : String) (status : Nat)
    (reqHeaders resHeaders : List (String × String)) : Bool :=
  !(get_fresh freshFn method status reqHeaders resHeaders)

/-! ## Subdomains: `subdomains` from `lib/request.js` -/

/-- Model of one dotted-decimal IPv4 octet as `net.isIPv4` accepts it:
one to three decimal digits, value at most 255, no leading zero. -/
def validOctet (cs : List Char) : Bool :=
  decide (cs ≠ []) && cs.all Char.isDigit && decide (cs.length ≤ 3) &&
  (decide (cs.length = 1) || decide (cs.headD '0' ≠ '0')) &&
  decide (cs.foldl (fun a c => a * 10 + (c.toNat - 48)) 0 ≤ 255)

/-- Model of `net.isIPv4`. -/
def isIPv4 (s : String) : Bool :=
  let parts := splitSep '.' s.toList
  decide (parts.length = 4) && parts.all validOctet

/-- Model of node `net.isIP` (truthiness): IPv4, or IPv6 approximated as
containing a colon — exact on dot-separated hostnames and on the address
literals reachable from the `hostname` getter. -/
def isIP (s : String) : Bool := isIPv4 s || s.toList.contains ':'

/-- JS `hostname.split('.')` as a list of strings. -/
def splitDot (s : String) : List String := (splitSep '.' s.toList).map String.mk

/-- Embedding of the `subdomains` getter: an IP hostname has no subdomains;
otherwise split the hostname on dots, reverse, and drop the leading
`offset` components (`app.subdomainOffset`, default 2). -/
def get_subdomains (offset : Nat) (hostname : String) : List String :=
  if isIP hostname then [] else ((splitDot hostname).reverse).drop offset

/-! ## Query string round-trip: `query`/`querystring` from `lib/request.js`

The `querystring` module is byte-oriented; JS strings are modelled here as
their UTF-8 byte lists. -/

/-- A JS string as its UTF-8 byte list. -/
abbrev BStr := List Nat

/-- Bytes of an ASCII string (for concrete instances). -/
def asciiB (s : String) : BStr := s.toList.map Char.toNat

/-- The unreserved bytes `querystring.escape` leaves unencoded:
ASCII alphanumerics and `- _ . ! ~ * ( )` and the apostrophe (byte 39). -/
def isUnreserved (b : Nat) : Bool :=
  (65 ≤ b && b ≤ 90) || (97 ≤ b && b ≤ 122) || (48 ≤ b && b ≤ 57) ||
  b == 45 || b == 95 || b == 46 || b == 33 || b == 126 || b == 42 ||
  b == 39 || b == 40 || b == 41

/-- Uppercase hex digit of a nibble, as a byte. -/
def hexDigitB (n : Nat) : Nat := if n < 10 then 48 + n else 55 + n

/-- Model of `querystring.escape`: unreserved bytes pass through, every
other byte becomes a percent triple. -/
def qescape : BStr → BStr
  | [] => []
  | b :: bs =>
    if isUnreserved b then b :: qescape bs
    else 37 :: hexDigitB (b / 16) :: hexDigitB (b % 16) :: qescape bs

/-- Hex digit value of a byte (both cases), if any. -/
def hexVal (c : Nat) : Option Nat :=
  if 48 ≤ c ∧ c ≤ 57 then some (c - 48)
  else if 65 ≤ c ∧ c ≤ 70 then some (c - 55)
  else if 97 ≤ c ∧ c ≤ 102 then some (c - 87)
  else none

/-- Model of the per-part decoding of `querystring.parse`: percent triples
become their byte, `+` becomes a space, a malformed percent sign is kept
literally (the parser's lenient fallback), all other bytes pass through. -/
def qunescape : BStr → BStr
  | [] => []
  | 37 :: h1 :: h2 :: rest =>
    match hexVal h1, hexVal h2 with
    | some a, some c => (16 * a + c) :: qunescape rest
    | _, _ => 37 :: qunescape (h1 :: h2 :: rest)
  | 37 :: rest => 37 :: qunescape rest
  | 43 :: rest => 32 :: qunescape rest
  | b :: rest => b :: qunescape rest

/-- Join byte strings with a separator byte. -/
def joinSep (sep : Nat) : List BStr → BStr
  | [] => []
  | [p] => p
  | p :: rest => p ++ sep :: joinSep sep rest

/-- Split before/after the first occurrence of `sep`, if any. -/
def splitFirst (sep : Nat) : BStr → Option (BStr × BStr)
  | [] => none
  | b :: rest =>
    if b = sep then some ([], rest)
    else (splitFirst sep rest).map (fun pq => (b :: pq.1, pq.2))

/-- Model of `querystring.stringify` on a mapping with string values: each
pair becomes `escape(key) '=' escape(value)`, joined with `'&'`. -/
def qs_stringify (m : List (BStr × BStr)) : BStr :=
  joinSep 38 (m.map (fun kv => qescape kv.1 ++ 61 :: qescape kv.2))

/-- Decode one `key=value` part of a query string (first `=` splits; a part
without `=` is a key with empty value). -/
def parsePart (p : BStr) : BStr × BStr :=
  match splitFirst 61 p with
  | some kv => (qunescape kv.1, qunescape kv.2)
  | none => (qunescape p, [])

/-- Model of `querystring.parse`, returning the decoded pairs in order (the
object assembly collapses duplicate keys; on the distinct-key mappings of
the round-trip claim the pair list is the mapping). -/
def qs_parse (s : BStr) : List (BStr × BStr) :=
  if s = [] then [] else (splitSep 38 s).map parsePart

/-- The raw request as the query getters/setters see it: just its URL
string (as bytes). HTTP request targets carry no fragment, so `parseurl`'s
query is everything after the first `?`. -/
structure QReq where
  url : BStr
deriving DecidableEq, Repr

/-- The query component of a URL (`parseurl(req).query`): the part after
the first `?`, or absent. -/
def parseQuery (u : BStr) : Option BStr := (splitFirst 63 u).map (fun pq => pq.2)

/-- The part of a URL before the first `?` (its path). -/
def pathPart (u : BStr) : BStr :=
  match splitFirst 63 u with
  | some pq => pq.1
  | none => u

/-- Embedding of the `querystring` setter: if the current search already
equals `?str`, do nothing; otherwise rebuild the URL from the path and the
new search (node `url.format` omits the `?` when the search is empty). -/
def set_querystring (st : QReq) (str : BStr) : QReq :=
  if parseQuery st.url = some str then st
  else QReq.mk (pathPart st.url ++ (if str = [] then [] else 63 :: str))

/-- Embedding of the `querystring` getter: `parse(this.req).query || ''`. -/
def get_querystring (st : QReq) : BStr := (parseQuery st.url).getD []

/-- Embedding of the `query` setter: `this.querystring = qs.stringify(obj)`. -/
def set_query (st : QReq) (m : List (BStr × BStr)) : QReq :=
  set_querystring st (qs_stringify m)

/-! ## Parsed URL memoization: the `URL` getter from `lib/request.js` -/

/-- What the `URL` getter can produce: a parsed WHATWG URL object, or the
bare empty object created on parse failure. -/
inductive UrlVal (α : Type) where
  | parsed : α → UrlVal α
  | emptyObj : UrlVal α
deriving DecidableEq, Repr

/-- The request state the `URL` getter reads: the memo slot, the origin
string (`protocol://host`), and the captured original URL. -/
structure UState (α : Type) where
  memoizedURL : Option (UrlVal α)
  originStr : String
  originalUrl : Option String

/-- Embedding of the `URL` getter. The WHATWG parser is an opaque
collaborator, passed in as `parse`; a parse failure (the `catch` branch)
yields the empty object; the first computed value is stored in the memo
slot. -/
def get_URL {α : Type} (parse : String → Option α) (st : UState α) : UrlVal α × UState α :=
  match st.memoizedURL with
  | some v => (v, st)
  | none =>
    let orig := st.originalUrl.getD ""
    let v :=
      match parse (st.originStr ++ orig) with
      | some u => UrlVal.parsed u
      | none => UrlVal.emptyObj
    (v, { st with memoizedURL := some v })

/-! ## Concrete instances used by witnesses and counterexamples -/

/-- Error carrying both an explicit status (418) and the ENOENT code. -/
def errEnoent418 : Err := ⟨some 418, none, some "ENOENT", false, "boom", [], false⟩

/-- A context state whose headers are not yet committed. -/
def stFresh : EState := ⟨false, true, [("x-old", "1")], 404, none, []⟩

/-- An exposable teapot error. -/
def errTeapot : Err := ⟨some 418, none, none, true, "teapot", [], false⟩

/-- A context state whose headers are already committed. -/
def stSent : EState := ⟨true, true, [("a", "b")], 200, some "partial", []⟩

/-- A non-exposable error with no explicit status. -/
def errPlain : Err := ⟨none, none, none, false, "secret detail", [], false⟩

/-- A plain GET request state before dispatch. -/
def stGet : RState := ⟨true, true, false, 200, "GET", 1, [], none, false, "", [], false, false⟩

/-- A 204 response with a staged body and staged entity headers. -/
def stEmpty204 : RState :=
  ⟨true, true, false, 204, "GET", 1,
   [("content-length", "5"), ("content-type", "text/plain; charset=utf-8")],
   some (.text "hello"), false, "", [], false, false⟩

/-- A HEAD request with a staged text body and no staged content-length. -/
def stHead : RState :=
  ⟨true, true, false, 200, "HEAD", 1, [], some (.text "hello"), false, "", [], false, false⟩

/-- A HEAD request with a staged text body and an already-staged
content-length header that disagrees with the staged body's length. -/
def stHeadPreset : RState :=
  ⟨true, true, false, 200, "HEAD", 1, [("content-length", "999")],
   some (.text "hello"), false, "", [], false, false⟩

/-- Proxy trust enabled, forwarded-for header present, no cache yet. -/
def stIpProxy : IpState :=
  ⟨[("x-forwarded-for", "1.2.3.4, 5.6.7.8")], true, "X-Forwarded-For", 0, "9.9.9.9", none⟩

/-- Proxy trust disabled, same forwarded-for header present. -/
def stIpDirect : IpState :=
  ⟨[("x-forwarded-for", "1.2.3.4, 5.6.7.8")], false, "X-Forwarded-For", 0, "9.9.9.9", none⟩

/-- A request whose URL already carries a query string. -/
def qReqOld : QReq := ⟨asciiB "/index?old=1"⟩

/-- A concrete mapping with characters that require escaping. -/
def qMapW : List (BStr × BStr) := [(asciiB "a b", asciiB "1&2"), (asciiB "c", asciiB "")]

/-- A URL-getter state with an empty memo slot. -/
def uStNone : UState Nat := ⟨none, "http://example.com", some "/%bad"⟩

/-! ## Helper lemmas -/

theorem hasHeader_true_iff (hs : List (String × String)) (f : String) :
    hasHeader hs f = true ↔ ∃ kv ∈ hs, kv.1 = f := by
  simp [hasHeader, List.find?_isSome]

theorem hasHeader_removeHeader_self (hs : List (String × String)) (f : String) :
    hasHeader (removeHeader hs f) f = false := by
  rw [← Bool.not_eq_true, hasHeader_true_iff]
  rintro ⟨kv, hmem, hname⟩
  rw [removeHeader, List.mem_filter] at hmem
  simp [hname] at hmem

theorem hasHeader_removeHeader_mono (hs : List (String × String)) (f g : String)
    (h : hasHeader hs f = false) : hasHeader (removeHeader hs g) f = false := by
  rw [← Bool.not_eq_true, hasHeader_true_iff]
  rintro ⟨kv, hmem, hname⟩
  rw [removeHeader, List.mem_filter] at hmem
  rw [← Bool.not_eq_true, hasHeader_true_iff] at h
  exact h ⟨kv, hmem.1, hname⟩

theorem resSetHeader_status (st : RState) (f v : String) :
    (resSetHeader st f v).status = st.status := by
  unfold resSetHeader; split <;> rfl

theorem resRemoveHeader_status (st : RState) (f : String) :
    (resRemoveHeader st f).status = st.status := by
  unfold resRemoveHeader; split <;> rfl

theorem resSetLength_status (st : RState) (n : Nat) :
    (resSetLength st n).status = st.status := by
  unfold resSetLength; exact resSetHeader_status ..

theorem resSetTypeText_status (st : RState) :
    (resSetTypeText st).status = st.status := by
  unfold resSetTypeText; exact resSetHeader_status ..

theorem setBodyNull_status (st : RState) : (setBodyNull st).status = st.status := by
  unfold setBodyNull
  rw [resRemoveHeader_status, resRemoveHeader_status, resRemoveHeader_status]

theorem resEnd_status (st : RState) (d : List Nat) : (resEnd st d).status = st.status := rfl

/-- The response finalizer never changes the declared status. -/
theorem respond_status (s : RState) : (respond s).status = s.status := by
  unfold respond
  repeat' split
  all_goals
    simp only [resEnd, setBodyNull, resSetLength, resSetHeader, resSetTypeText,
      resRemoveHeader]
  all_goals repeat' split
  all_goals rfl

/-! ## C1: error recovery status and body resolution (headers not committed) -/

/-- C1 counterexample: the claim reads the resolution order as "the error's
explicit status if present, 404 if the error carries ENOENT, otherwise
500"; on an error carrying both an explicit 418 status and the ENOENT code
the code resolves 404, not the explicit 418. -/
theorem c1_status_order_counterexample :
    (onerror stFresh errEnoent418).1.status = 404 ∧
    (onerror stFresh errEnoent418).1.status ≠ 418 ∧
    (onerror stFresh errEnoent418).2.status = some 404 := by
  decide

/-- C1 (amended): with headers not yet committed, error recovery resolves
the status as: 404 when the error carries the ENOENT transport code (taking
precedence over an explicit status); otherwise the error's explicit status
when present; otherwise 500; a status not found in the known status table
is forced to 500. The outward body is the error's own message exactly when
the error is marked exposable, else the generic reason phrase of the
resolved status; and the resolved status is recorded back onto both the
context and the error object. -/
theorem c1_error_resolution (st : EState) (err : Err)
    (hh : st.headerSent = false) (hw : st.writable = true) :
    (onerror st err).1.status = errResolvedStatus err ∧
    (onerror st err).2.status = some (errResolvedStatus err) ∧
    (onerror st err).1.endedWith =
      some (if err.expose then err.message
            else (statusesMsg (errResolvedStatus err)).getD "") := by
  simp [onerror, errResolvedStatus, hh, hw]

/-- C1 witness: a non-exposable error with no explicit status resolves to
500 with the generic reason phrase as the body. -/
theorem c1_error_resolution_witness :
    stFresh.headerSent = false ∧ stFresh.writable = true ∧
    ((onerror stFresh errPlain).1.status = errResolvedStatus errPlain ∧
     (onerror stFresh errPlain).2.status = some (errResolvedStatus errPlain) ∧
     (onerror stFresh errPlain).1.endedWith =
       some (if errPlain.expose then errPlain.message
             else (statusesMsg (errResolvedStatus errPlain)).getD "")) :=
  ⟨rfl, rfl, c1_error_resolution stFresh errPlain rfl rfl⟩

/-! ## C2: error recovery after headers are committed -/

/-- C2: when headers are already committed (or the response is not
writable), recovery mutates no header, status or body state: it marks the
error with the headerSent flag, emits it on the application error channel,
and returns with the response state unchanged. -/
theorem c2_headers_sent_no_mutation (st : EState) (err : Err)
    (h : st.headerSent = true ∨ st.writable = false) :
    (onerror st err).1.headers = st.headers ∧
    (onerror st err).1.status = st.status ∧
    (onerror st err).1.endedWith = st.endedWith ∧
    (onerror st err).1.headerSent = st.headerSent ∧
    (onerror st err).1.writable = st.writable ∧
    (onerror st err).2 = { err with headerSent := true } ∧
    (onerror st err).1.emitted = st.emitted ++ [{ err with headerSent := true }] := by
  rcases h with h | h <;> simp [onerror, h]

/-- C2 witness: a committed response is left untouched; the error is marked
and emitted. -/
theorem c2_headers_sent_witness :
    (stSent.headerSent = true ∨ stSent.writable = false) ∧
    ((onerror stSent errPlain).1.headers = stSent.headers ∧
     (onerror stSent errPlain).1.status = stSent.status ∧
     (onerror stSent errPlain).1.endedWith = stSent.endedWith ∧
     (onerror stSent errPlain).1.headerSent = stSent.headerSent ∧
     (onerror stSent errPlain).1.writable = stSent.writable ∧
     (onerror stSent errPlain).2 = { errPlain with headerSent := true } ∧
     (onerror stSent errPlain).1.emitted =
       stSent.emitted ++ [{ errPlain with headerSent := true }]) :=
  ⟨Or.inl rfl, c2_headers_sent_no_mutation stSent errPlain (Or.inl rfl)⟩

/-! ## C3: the dispatcher's 404 default -/

/-- C3: `handleRequest` sets the raw response status to 404 before the
composed chain runs; a chain that never assigns a status therefore yields a
404 response after finalization. -/
theorem c3_default_404 (mw : RState → RState) (st : RState)
    (hmw : ∀ s, (mw s).status = s.status) :
    (handleRequest mw st).status = 404 := by
  unfold handleRequest
  rw [respond_status, hmw]

/-- C3 witness: the identity chain yields a 404 response. -/
theorem c3_default_404_witness :
    (handleRequest (fun s => s) stGet).status = 404 :=
  c3_default_404 (fun s => s) stGet (fun _ => rfl)

theorem lookupHeader_map_set (hs : List (String × String)) (f v : String) :
    lookupHeader (hs.map (fun kv => if kv.1 == f then (kv.1, v) else kv)) f =
      if (hs.find? (fun kv => kv.1 == f)).isSome then some v else none := by
  induction hs with
  | nil => simp [lookupHeader]
  | cons kv t ih =>
    by_cases hkv : kv.1 == f
    · simp [lookupHeader, List.find?, hkv]
    · simp only [List.map_cons, if_neg hkv]
      rw [lookupHeader, List.find?]
      simp only [hkv]
      rw [List.find?]
      simp only [hkv]
      exact ih

theorem lookupHeader_append_single (hs : List (String × String)) (f v : String)
    (h : hs.find? (fun kv => kv.1 == f) = none) :
    lookupHeader (hs ++ [(f, v)]) f = some v := by
  induction hs with
  | nil => simp [lookupHeader, List.find?]
  | cons kv t ih =>
    rw [List.find?] at h
    cases hkv : (kv.1 == f) with
    | true => rw [hkv] at h; exact absurd h (by simp)
    | false =>
      rw [hkv] at h
      rw [List.cons_append, lookupHeader, List.find?, hkv]
      exact ih h

theorem lookupHeader_setHeader_self (hs : List (String × String)) (f v : String) :
    lookupHeader (setHeader hs f v) f = some v := by
  unfold setHeader
  cases hfind : (hs.find? (fun kv => kv.1 == f)) with
  | some kv => simp only [hfind, Option.isSome_some, if_true]
               rw [lookupHeader_map_set, hfind]; simp
  | none => simp only [hfind, Option.isSome_none, Bool.false_eq_true, if_false]
            exact lookupHeader_append_single hs f v hfind

theorem resRemoveHeader_body (st : RState) (f : String) :
    (resRemoveHeader st f).body = st.body := by
  unfold resRemoveHeader; split <;> rfl

theorem resRemoveHeader_writtenBytes (st : RState) (f : String) :
    (resRemoveHeader st f).writtenBytes = st.writtenBytes := by
  unfold resRemoveHeader; split <;> rfl

theorem resSetHeader_writtenBytes (st : RState) (f v : String) :
    (resSetHeader st f v).writtenBytes = st.writtenBytes := by
  unfold resSetHeader; split <;> rfl

theorem setBodyNull_body (st : RState) : (setBodyNull st).body = none := by
  unfold setBodyNull
  rw [resRemoveHeader_body, resRemoveHeader_body, resRemoveHeader_body]

theorem setBodyNull_writtenBytes (st : RState) :
    (setBodyNull st).writtenBytes = st.writtenBytes := by
  unfold setBodyNull
  rw [resRemoveHeader_writtenBytes, resRemoveHeader_writtenBytes, resRemoveHeader_writtenBytes]

/-- With headers not yet committed, setting the body to null strips the
entity headers. -/
theorem setBodyNull_headers (st : RState) (h : st.headersSent = false) :
    (setBodyNull st).headers =
      removeHeader (removeHeader (removeHeader st.headers "content-type")
        "content-length") "transfer-encoding" := by
  simp [setBodyNull, resRemoveHeader, h]

/-! ## C4: body-forbidding statuses end with no payload -/

/-- C4: for a finalized response whose declared status forbids a body
(204, 205, 304), the finalizer discards any staged body (the context body
becomes null), writes no body bytes, ends the response, and (when headers
were not already committed) leaves no content-length header, regardless of
the staged body. -/
theorem c4_empty_status_strips_body (ctx : RState)
    (hr : ctx.respondFlag = true) (hw : ctx.writable = true)
    (he : statusEmpty ctx.status = true) :
    (respond ctx).body = none ∧
    (respond ctx).writtenBytes = ctx.writtenBytes ∧
    (respond ctx).ended = true ∧
    (ctx.headersSent = false →
      hasHeader (respond ctx).headers "content-length" = false) := by
  have hrespond : respond ctx = resEnd (setBodyNull ctx) [] := by
    unfold respond
    rw [hr, hw]
    simp [he]
  rw [hrespond]
  refine ⟨?_, ?_, rfl, ?_⟩
  · show (setBodyNull ctx).body = none
    exact setBodyNull_body ctx
  · show (setBodyNull ctx).writtenBytes ++ [] = ctx.writtenBytes
    rw [List.append_nil, setBodyNull_writtenBytes]
  · intro hhs
    show hasHeader (setBodyNull ctx).headers "content-length" = false
    rw [setBodyNull_headers ctx hhs]
    exact hasHeader_removeHeader_mono _ _ _ (hasHeader_removeHeader_self _ _)

/-- C4 witness: a 204 response with a staged body and staged entity
headers is finalized with no body, no written bytes, and no
content-length. -/
theorem c4_empty_status_witness :
    stEmpty204.respondFlag = true ∧ stEmpty204.writable = true ∧
    statusEmpty stEmpty204.status = true ∧ stEmpty204.headersSent = false ∧
    (respond stEmpty204).body = none ∧
    (respond stEmpty204).writtenBytes = stEmpty204.writtenBytes ∧
    (respond stEmpty204).ended = true ∧
    hasHeader (respond stEmpty204).headers "content-length" = false :=
  ⟨rfl, rfl, rfl, rfl,
   (c4_empty_status_strips_body stEmpty204 rfl rfl rfl).1,
   (c4_empty_status_strips_body stEmpty204 rfl rfl rfl).2.1,
   (c4_empty_status_strips_body stEmpty204 rfl rfl rfl).2.2.1,
   (c4_empty_status_strips_body stEmpty204 rfl rfl rfl).2.2.2 rfl⟩

/-! ## C5: HEAD requests transmit no body -/

/-- C5 counterexample: the claim says the finalizer sets the content-length
header to the staged body's length on every finalized HEAD request; but
when a content-length header is already staged the finalizer leaves it
untouched, even though it disagrees with the staged body's length. -/
theorem c5_preset_length_counterexample :
    lookupHeader (respond stHeadPreset).headers "content-length" = some "999" ∧
    byteLen "hello" = 5 ∧
    lookupHeader (respond stHeadPreset).headers "content-length" ≠ some (toString 5) ∧
    (respond stHeadPreset).writtenBytes = [] := by
  refine ⟨rfl, rfl, ?_, rfl⟩
  decide

/-- C5 (amended): for a finalized HEAD request with a non-body-forbidding
status, no body bytes are written to the transport even when a non-empty
body was staged, and the response is ended; when headers are not yet
committed and no content-length header was already staged, the
content-length header is set to the declared body's length before the
response is ended. -/
theorem c5_head_no_body_bytes (ctx : RState)
    (hr : ctx.respondFlag = true) (hw : ctx.writable = true)
    (he : statusEmpty ctx.status = false) (hm : ctx.method = "HEAD") :
    (respond ctx).writtenBytes = ctx.writtenBytes ∧
    (respond ctx).ended = true ∧
    (∀ n, ctx.headersSent = false → hasHeader ctx.headers "content-length" = false →
      responseLength ctx = some n →
      lookupHeader (respond ctx).headers "content-length" = some (toString n)) := by
  have hresp : respond ctx =
      resEnd (if ¬ctx.headersSent = true ∧ ¬hasHeader ctx.headers "content-length" = true then
                match responseLength ctx with
                | some n => resSetLength ctx n
                | none => ctx
              else ctx) [] := by
    unfold respond
    simp only [hr, hw, hm, he]
    simp
  rw [hresp]
  refine ⟨?_, ?_, ?_⟩
  · show (if ¬ctx.headersSent = true ∧ ¬hasHeader ctx.headers "content-length" = true then
            match responseLength ctx with
            | some n => resSetLength ctx n
            | none => ctx
          else ctx).writtenBytes ++ [] = ctx.writtenBytes
    rw [List.append_nil]
    split
    · split
      · exact resSetHeader_writtenBytes ..
      · rfl
    · rfl
  · rfl
  · intro n hhs hcl hlen
    rw [if_pos ⟨by simp [hhs], by simp [hcl]⟩, hlen]
    show lookupHeader (resSetLength ctx n).headers "content-length" = some (toString n)
    unfold resSetLength resSetHeader
    rw [hhs]
    simp only [Bool.false_eq_true, if_false]
    exact lookupHeader_setHeader_self ..

/-- C5 witness: a HEAD request with staged body `hello` and no staged
content-length is finalized with content-length 5 and no body bytes. -/
theorem c5_head_witness :
    stHead.respondFlag = true ∧ stHead.writable = true ∧
    statusEmpty stHead.status = false ∧ stHead.method = "HEAD" ∧
    stHead.headersSent = false ∧ hasHeader stHead.headers "content-length" = false ∧
    responseLength stHead = some 5 ∧
    (respond stHead).writtenBytes = stHead.writtenBytes ∧
    (respond stHead).ended = true ∧
    lookupHeader (respond stHead).headers "content-length" = some (toString 5) :=
  ⟨rfl, rfl, rfl, rfl, rfl, rfl, rfl,
   (c5_head_no_body_bytes stHead rfl rfl rfl rfl).1,
   (c5_head_no_body_bytes stHead rfl rfl rfl rfl).2.1,
   (c5_head_no_body_bytes stHead rfl rfl rfl rfl).2.2 5 rfl rfl rfl⟩

/-! ## C6: client IP resolution -/

theorem jsOrS_right_empty (x : String) : jsOrS x "" = x := by
  unfold jsOrS; split <;> simp_all

theorem get_ips_cache_irrelevant (st : IpState) (c : Option String) :
    get_ips { st with ipCache := c } = get_ips st := by
  simp [get_ips]

/-- C6: with proxy trust disabled, `ips` is empty and `ip` is the raw
socket remote address even when a forwarded-for header is present; with
proxy trust enabled and the configured header present, `ips` is the header
split on commas (client-nearest first), truncated to the trailing
`maxIpsCount` entries when that maximum is positive, and `ip` is the first
entry of that list, falling back to the raw socket address; the resolved
value is cached, and a second read returns the same value and state. -/
theorem c6_ip_resolution (st : IpState) (hc : st.ipCache = none) :
    (st.proxy = false → get_ips st = [] ∧ (get_ip st).1 = st.remoteAddress) ∧
    (st.proxy = true → reqHeaderGet st.headers st.proxyIpHeader ≠ "" →
      get_ips st =
        (if st.maxIpsCount > 0 then
          (splitCommaWS (reqHeaderGet st.headers st.proxyIpHeader)).drop
            ((splitCommaWS (reqHeaderGet st.headers st.proxyIpHeader)).length - st.maxIpsCount)
        else splitCommaWS (reqHeaderGet st.headers st.proxyIpHeader)) ∧
      (get_ip st).1 = jsOrS ((get_ips st).headD "") st.remoteAddress) ∧
    get_ip (get_ip st).2 = ((get_ip st).1, (get_ip st).2) := by
  refine ⟨?_, ?_, ?_⟩
  · intro hp
    have hips : get_ips st = [] := by simp [get_ips, hp]
    refine ⟨hips, ?_⟩
    simp only [get_ip, hc, Option.getD_none, ne_eq, not_true_eq_false, if_false, hips]
    by_cases hra : st.remoteAddress = "" <;> simp [jsOrS, hra]
  · intro hp hv
    refine ⟨by simp [get_ips, hp, hv], ?_⟩
    simp only [get_ip, hc, Option.getD_none, ne_eq, not_true_eq_false, if_false]
    exact jsOrS_right_empty _
  · simp only [get_ip, hc, Option.getD_none, ne_eq, not_true_eq_false, if_false]
    by_cases hv : jsOrS (jsOrS ((get_ips st).headD "") st.remoteAddress) "" = ""
    · rw [if_neg (by simp only [Option.getD_some, ne_eq, not_not]; exact hv)]
      rw [get_ips_cache_irrelevant]
    · rw [if_pos (by simpa using hv)]
      simp

/-- C6 witness: with proxy trust enabled and the forwarded-for header
`1.2.3.4, 5.6.7.8`, `ips` resolves to the ordered split and `ip` to
`1.2.3.4`; with proxy trust disabled, `ip` is the socket address. -/
theorem c6_ip_resolution_witness :
    stIpProxy.ipCache = none ∧ stIpProxy.proxy = true ∧
    reqHeaderGet stIpProxy.headers stIpProxy.proxyIpHeader ≠ "" ∧
    (get_ips stIpProxy =
      (if stIpProxy.maxIpsCount > 0 then
        (splitCommaWS (reqHeaderGet stIpProxy.headers stIpProxy.proxyIpHeader)).drop
          ((splitCommaWS (reqHeaderGet stIpProxy.headers stIpProxy.proxyIpHeader)).length -
            stIpProxy.maxIpsCount)
      else splitCommaWS (reqHeaderGet stIpProxy.headers stIpProxy.proxyIpHeader)) ∧
     (get_ip stIpProxy).1 = jsOrS ((get_ips stIpProxy).headD "") stIpProxy.remoteAddress) ∧
    get_ips stIpProxy = ["1.2.3.4", "5.6.7.8"] ∧
    (get_ip stIpProxy).1 = "1.2.3.4" ∧
    (get_ips stIpDirect = [] ∧ (get_ip stIpDirect).1 = stIpDirect.remoteAddress) ∧
    (get_ip stIpDirect).1 = "9.9.9.9" :=
  ⟨rfl, rfl, by decide, (c6_ip_resolution stIpProxy rfl).2.1 rfl (by decide),
   by decide, by decide,
   (c6_ip_resolution stIpDirect rfl).1 rfl, by decide⟩

/-! ## C7: freshness characterization -/

/-- C7: `fresh` is true exactly for a GET or HEAD request whose current
response status is 2xx or 304 and whose conditional-header comparison
succeeds; in that range it equals the comparison's result, every other
combination is not fresh, and `stale` is always its negation. -/
theorem c7_fresh_characterization
    (freshFn : List (String × String) → List (String × String) → Bool)
    (method : String) (status : Nat) (rh sh : List (String × String)) :
    get_fresh freshFn method status rh sh =
      (decide (method = "GET" ∨ method = "HEAD") &&
       decide ((200 ≤ status ∧ status < 300) ∨ status = 304) &&
       freshFn rh sh) ∧
    get_stale freshFn method status rh sh =
      !(get_fresh freshFn method status rh sh) := by
  refine ⟨?_, rfl⟩
  unfold get_fresh
  by_cases h1 : method = "GET" ∨ method = "HEAD"
  · rw [if_neg (by tauto)]
    by_cases h2 : (200 ≤ status ∧ status < 300) ∨ status = 304
    · rw [if_pos h2]; simp [h1, h2]
    · rw [if_neg h2]; simp [h1, h2]
  · rw [if_pos (by tauto)]
    simp [h1]

/-! ## C8: subdomain resolution -/

/-- C8 counterexample: the claim's formula (split on dots, reverse, drop
the offset) disagrees with the code on an IP hostname: for `1.2.3.4` the
code yields no subdomains while the formula yields `[2, 1]`. -/
theorem c8_subdomains_counterexample :
    get_subdomains 2 "1.2.3.4" = [] ∧
    ((splitDot "1.2.3.4").reverse).drop 2 ≠ ([] : List String) := by
  decide

/-- C8 (amended): for a non-IP hostname, `subdomains` is the hostname
split on dots, reversed, with the leading `offset` components dropped; for
an IP hostname it is empty. -/
theorem c8_subdomains (offset : Nat) (hostname : String) :
    (isIP hostname = false →
      get_subdomains offset hostname = ((splitDot hostname).reverse).drop offset) ∧
    (isIP hostname = true → get_subdomains offset hostname = []) := by
  constructor <;> intro h <;> simp [get_subdomains, h]

/-- C8 witness: the default offset on `tobi.ferrets.example.com` yields
`[ferrets, tobi]`. -/
theorem c8_subdomains_witness :
    isIP "tobi.ferrets.example.com" = false ∧
    get_subdomains 2 "tobi.ferrets.example.com" =
      ((splitDot "tobi.ferrets.example.com").reverse).drop 2 ∧
    get_subdomains 2 "tobi.ferrets.example.com" = ["ferrets", "tobi"] :=
  ⟨by decide, (c8_subdomains 2 "tobi.ferrets.example.com").1 (by decide), by decide⟩

/-! ## C10: URL getter totality and memoization -/

/-- C10: the `URL` getter is total (it is a function): when the memo slot
is empty and the origin plus original URL fails to parse it returns the
bare empty object; whatever value the first read produces is stored in the
memo slot, and a subsequent read returns the same value and state
unchanged. -/
theorem c10_url_total_memoized {α : Type} (parse : String → Option α) (st : UState α) :
    (st.memoizedURL = none → parse (st.originStr ++ st.originalUrl.getD "") = none →
      (get_URL parse st).1 = UrlVal.emptyObj) ∧
    (get_URL parse st).2.memoizedURL = some (get_URL parse st).1 ∧
    get_URL parse (get_URL parse st).2 = ((get_URL parse st).1, (get_URL parse st).2) := by
  refine ⟨?_, ?_, ?_⟩
  · intro hm hp
    simp [get_URL, hm, hp]
  · cases hm : st.memoizedURL <;> simp [get_URL, hm]
  · cases hm : st.memoizedURL <;> simp [get_URL, hm]

/-- C10 witness: with a parser that rejects the input, the first read
yields the empty object. -/
theorem c10_url_witness :
    uStNone.memoizedURL = none ∧
    (fun _ : String => (none : Option Nat))
      (uStNone.originStr ++ uStNone.originalUrl.getD "") = none ∧
    (get_URL (fun _ : String => (none : Option Nat)) uStNone).1 = UrlVal.emptyObj :=
  ⟨rfl, rfl, (c10_url_total_memoized (fun _ => none) uStNone).1 rfl rfl⟩

/-! ## C9: query string round-trip -/

theorem hexVal_hexDigitB (n : Nat) (h : n < 16) : hexVal (hexDigitB n) = some n := by
  unfold hexVal hexDigitB
  split_ifs with h1 h2 h3 h4 h5 h6 h7 <;> simp_all <;> omega

theorem qunescape_cons_plain (b : Nat) (l : List Nat) (h37 : b ≠ 37) (h43 : b ≠ 43) :
    qunescape (b :: l) = b :: qunescape l := by
  cases l with
  | nil => simp [qunescape, h37, h43]
  | cons c l2 =>
    cases l2 with
    | nil => simp [qunescape, h37, h43]
    | cons d l3 => simp [qunescape, h37, h43]

theorem qunescape_pct (h1 h2 : Nat) (a c : Nat) (l : List Nat)
    (ha : hexVal h1 = some a) (hc : hexVal h2 = some c) :
    qunescape (37 :: h1 :: h2 :: l) = (16 * a + c) :: qunescape l := by
  simp [qunescape, ha, hc]

theorem isUnreserved_ne (b : Nat) (h : isUnreserved b = true) :
    b ≠ 37 ∧ b ≠ 43 ∧ b ≠ 38 ∧ b ≠ 61 ∧ b ≠ 63 := by
  refine ⟨?_, ?_, ?_, ?_, ?_⟩ <;> rintro rfl <;> simp [isUnreserved] at h

theorem qunescape_qescape (bs : List Nat) (h : ∀ b ∈ bs, b < 256) :
    qunescape (qescape bs) = bs := by
  induction bs with
  | nil => rfl
  | cons b t ih =>
    have hb : b < 256 := h b (List.mem_cons_self ..)
    have ht : ∀ x ∈ t, x < 256 := fun x hx => h x (List.mem_cons_of_mem _ hx)
    rw [qescape]
    split
    · rename_i hu
      rcases isUnreserved_ne b hu with ⟨h37, h43, -⟩
      rw [qunescape_cons_plain b _ h37 h43, ih ht]
    · rw [qunescape_pct _ _ (b / 16) (b % 16) _
        (hexVal_hexDigitB _ (by omega)) (hexVal_hexDigitB _ (by omega)), ih ht]
      congr 1
      omega

theorem hexDigitB_ne (n : Nat) (h : n < 16) :
    hexDigitB n ≠ 38 ∧ hexDigitB n ≠ 61 ∧ hexDigitB n ≠ 63 := by
  unfold hexDigitB
  split <;> omega

theorem qescape_sep_free (bs : List Nat) (h : ∀ b ∈ bs, b < 256) :
    ∀ x ∈ qescape bs, x ≠ 38 ∧ x ≠ 61 ∧ x ≠ 63 := by
  induction bs with
  | nil => simp [qescape]
  | cons b t ih =>
    have hb : b < 256 := h b (List.mem_cons_self ..)
    have ht : ∀ x ∈ t, x < 256 := fun x hx => h x (List.mem_cons_of_mem _ hx)
    intro x hx
    rw [qescape] at hx
    split at hx
    · rename_i hu
      rcases List.mem_cons.mp hx with rfl | hx2
      · rcases isUnreserved_ne x hu with ⟨-, -, h38, h61, h63⟩
        exact ⟨h38, h61, h63⟩
      · exact ih ht x hx2
    · rcases List.mem_cons.mp hx with rfl | hx2
      · exact ⟨by omega, by omega, by omega⟩
      rcases List.mem_cons.mp hx2 with rfl | hx3
      · exact hexDigitB_ne _ (by omega)
      rcases List.mem_cons.mp hx3 with rfl | hx4
      · exact hexDigitB_ne _ (by omega)
      · exact ih ht x hx4

theorem splitSepAux_no_sep {α : Type} [DecidableEq α] (sep : α) (l acc : List α)
    (h : sep ∉ l) : splitSepAux sep l acc = [acc.reverse ++ l] := by
  induction l generalizing acc with
  | nil => simp [splitSepAux]
  | cons b t ih =>
    have hb : b ≠ sep := fun hx => h (hx ▸ List.mem_cons_self ..)
    rw [splitSepAux, if_neg hb, ih _ (fun hx => h (List.mem_cons_of_mem _ hx))]
    simp

theorem splitSepAux_sep_cons {α : Type} [DecidableEq α] (sep : α) (p r acc : List α)
    (h : sep ∉ p) :
    splitSepAux sep (p ++ sep :: r) acc = (acc.reverse ++ p) :: splitSepAux sep r [] := by
  induction p generalizing acc with
  | nil => simp [splitSepAux]
  | cons b t ih =>
    have hb : b ≠ sep := fun hx => h (hx ▸ List.mem_cons_self ..)
    rw [List.cons_append, splitSepAux, if_neg hb,
      ih _ (fun hx => h (List.mem_cons_of_mem _ hx))]
    simp

theorem splitSep_joinSep (sep : Nat) (parts : List (List Nat))
    (hne : parts ≠ []) (hp : ∀ p ∈ parts, sep ∉ p) :
    splitSep sep (joinSep sep parts) = parts := by
  induction parts with
  | nil => exact absurd rfl hne
  | cons p rest ih =>
    cases rest with
    | nil =>
      rw [joinSep, splitSep, splitSepAux_no_sep sep p [] (hp p (List.mem_cons_self ..))]
      simp
    | cons q rest2 =>
      rw [joinSep, splitSep,
        splitSepAux_sep_cons sep p _ [] (hp p (List.mem_cons_self ..))]
      simp only [List.reverse_nil, List.nil_append]
      rw [show splitSepAux sep (joinSep sep (q :: rest2)) [] =
        splitSep sep (joinSep sep (q :: rest2)) from rfl]
      rw [ih (List.cons_ne_nil _ _) (fun x hx => hp x (List.mem_cons_of_mem _ hx))]
      exact fun h => List.noConfusion h

theorem splitFirst_append_sep (sep : Nat) (k v : List Nat) (hk : sep ∉ k) :
    splitFirst sep (k ++ sep :: v) = some (k, v) := by
  induction k with
  | nil => simp [splitFirst]
  | cons b t ih =>
    have hb : b ≠ sep := fun hx => hk (hx ▸ List.mem_cons_self ..)
    rw [List.cons_append, splitFirst, if_neg hb,
      ih (fun hx => hk (List.mem_cons_of_mem _ hx))]
    rfl

theorem splitFirst_none_of_no_sep (sep : Nat) (l : List Nat) (h : sep ∉ l) :
    splitFirst sep l = none := by
  induction l with
  | nil => rfl
  | cons b t ih =>
    have hb : b ≠ sep := fun hx => h (hx ▸ List.mem_cons_self ..)
    rw [splitFirst, if_neg hb, ih (fun hx => h (List.mem_cons_of_mem _ hx))]
    rfl

theorem splitFirst_fst_no_sep (sep : Nat) (l : List Nat) :
    ∀ k v, splitFirst sep l = some (k, v) → sep ∉ k := by
  induction l with
  | nil => intro k v h; simp [splitFirst] at h
  | cons b t ih =>
    intro k v h
    rw [splitFirst] at h
    split at h
    · rename_i hb
      simp only [Option.some_inj, Prod.mk.injEq] at h
      rw [← h.1]
      simp
    · rename_i hb
      cases hsf : splitFirst sep t with
      | none => rw [hsf] at h; simp at h
      | some pq =>
        rw [hsf] at h
        simp only [Option.map_some', Option.some_inj, Prod.mk.injEq] at h
        rw [← h.1]
        intro hmem
        rcases List.mem_cons.mp hmem with hs | hs
        · exact hb hs.symm
        · exact ih pq.1 pq.2 (by rw [hsf]) hs

theorem splitFirst_none_no_sep (sep : Nat) (l : List Nat)
    (h : splitFirst sep l = none) : sep ∉ l := by
  induction l with
  | nil => simp
  | cons b t ih =>
    rw [splitFirst] at h
    split at h
    · exact absurd h (by simp)
    · rename_i hb
      have ht : splitFirst sep t = none := by
        cases hsf : splitFirst sep t with
        | none => rfl
        | some pq => rw [hsf] at h; simp at h
      intro hmem
      rcases List.mem_cons.mp hmem with hs | hs
      · exact hb hs.symm
      · exact ih ht hs

theorem parsePart_enc (k v : List Nat) (hk : ∀ b ∈ k, b < 256) (hv : ∀ b ∈ v, b < 256) :
    parsePart (qescape k ++ 61 :: qescape v) = (k, v) := by
  have h61 : (61 : Nat) ∉ qescape k := fun hm => (qescape_sep_free k hk 61 hm).2.1 rfl
  rw [parsePart, splitFirst_append_sep 61 _ _ h61]
  simp [qunescape_qescape k hk, qunescape_qescape v hv]

theorem joinSep_cons_ne_nil (sep : Nat) (p : List Nat) (rest : List (List Nat))
    (hp : p ≠ []) : joinSep sep (p :: rest) ≠ [] := by
  cases rest with
  | nil => simpa [joinSep] using hp
  | cons q r => simp [joinSep, hp]

theorem qs_parse_stringify (m : List (List Nat × List Nat))
    (hb : ∀ kv ∈ m, (∀ b ∈ kv.1, b < 256) ∧ (∀ b ∈ kv.2, b < 256)) :
    qs_parse (qs_stringify m) = m := by
  cases m with
  | nil => rfl
  | cons kv0 rest =>
    have hb0 := hb kv0 (List.mem_cons_self ..)
    rw [qs_parse, qs_stringify]
    rw [if_neg (by
      simpa [List.map_cons] using
        joinSep_cons_ne_nil 38 (qescape kv0.1 ++ 61 :: qescape kv0.2)
          (rest.map (fun kv => qescape kv.1 ++ 61 :: qescape kv.2)) (by simp))]
    rw [splitSep_joinSep 38 _ (by simp) ?nosep]
    case nosep =>
      intro p hp
      rcases List.mem_map.mp hp with ⟨kv, hkv, rfl⟩
      intro hx
      rcases List.mem_append.mp hx with h1 | h2
      · exact (qescape_sep_free kv.1 (hb kv hkv).1 38 h1).1 rfl
      · rcases List.mem_cons.mp h2 with h61 | h3
        · simp at h61
        · exact (qescape_sep_free kv.2 (hb kv hkv).2 38 h3).1 rfl
    rw [List.map_map]
    have : ∀ kv ∈ kv0 :: rest,
        (parsePart ∘ fun kv => qescape kv.1 ++ 61 :: qescape kv.2) kv = id kv := by
      intro kv hkv
      have hbk := hb kv hkv
      simp only [Function.comp_apply, id_eq]
      rw [parsePart_enc kv.1 kv.2 hbk.1 hbk.2]
    rw [List.map_congr_left this, List.map_id]

theorem pathPart_no_sep (u : List Nat) : (63 : Nat) ∉ pathPart u := by
  unfold pathPart
  cases hsf : splitFirst 63 u with
  | none => simp only []
            exact splitFirst_none_no_sep 63 u hsf
  | some pq => simp only []
               exact splitFirst_fst_no_sep 63 u pq.1 pq.2 (by rw [hsf])

theorem get_qs_build (u : List Nat) (str : List Nat) :
    get_querystring ⟨pathPart u ++ (if str = [] then [] else 63 :: str)⟩ = str := by
  by_cases hstr : str = []
  · subst hstr
    rw [if_pos rfl, List.append_nil, get_querystring, parseQuery,
      splitFirst_none_of_no_sep _ _ (pathPart_no_sep u)]
    rfl
  · rw [if_neg hstr, get_querystring, parseQuery,
      splitFirst_append_sep 63 _ _ (pathPart_no_sep u)]
    rfl

theorem get_qs_set_qs (st : QReq) (str : List Nat) :
    get_querystring (set_querystring st str) = str := by
  rw [set_querystring]
  by_cases hq : parseQuery st.url = some str
  · rw [if_pos hq, get_querystring, hq, Option.getD_some]
  · rw [if_neg hq]
    exact get_qs_build st.url str

/-- C9: for every mapping of string keys to string values (distinct keys,
bytes of well-formed UTF-8 strings), assigning it to the request's `query`
property and then reading `querystring` yields a string that the
query-string parser parses back to the same mapping. -/
theorem c9_query_roundtrip (st : QReq) (m : List (List Nat × List Nat))
    (hkeys : (m.map Prod.fst).Nodup)
    (hbytes : ∀ kv ∈ m, (∀ b ∈ kv.1, b < 256) ∧ (∀ b ∈ kv.2, b < 256)) :
    qs_parse (get_querystring (set_query st m)) = m := by
  rw [set_query, get_qs_set_qs, qs_parse_stringify m hbytes]

/-- C9 witness: a concrete mapping with a space, an ampersand and an empty
value survives the round trip on a request that already had a query. -/
theorem c9_query_roundtrip_witness :
    (qMapW.map Prod.fst).Nodup ∧
    (∀ kv ∈ qMapW, (∀ b ∈ kv.1, b < 256) ∧ (∀ b ∈ kv.2, b < 256)) ∧
    qs_parse (get_querystring (set_query qReqOld qMapW)) = qMapW :=
  ⟨by decide, by decide, c9_query_roundtrip qReqOld qMapW (by decide) (by decide)⟩
